import Mathlib

/-!
Verification development for the spending-control budgeting application.

The definitions below are a shallow embedding of the budget domain:
the Prisma-backed tables become lists of rows inside an explicit `DB`
state, the domain services of `src/domain/budget.ts` become pure
state-passing functions, decimal columns become `ℚ`, and timestamps
become milliseconds-since-epoch integers (the granularity of a JS
`Date`).  Fallible operations return `Except`.
-/

set_option maxRecDepth 10000

namespace SpendingControl

/-- A calendar month key.  In the source this is the zero-padded string
`"YYYY-MM"`; two keys are equal iff their (year, month) pairs are, so we
embed the key as that pair directly. -/
structure YearMonth where
  year : Nat
  month : Nat
deriving DecidableEq, Repr

/-- Leap-year test of the proleptic Gregorian calendar (as used by the
JS `Date` arithmetic underlying `date-fns`). -/
def isLeapYear (y : Nat) : Bool :=
  (y % 4 == 0 && y % 100 != 0) || (y % 400 == 0)

/-- Number of days of month `m` (1-12) in a year with leap flag `leap`. -/
def daysInMonth (leap : Bool) (m : Nat) : Nat :=
  if m = 2 then (if leap then 29 else 28)
  else if m = 4 ∨ m = 6 ∨ m = 9 ∨ m = 11 then 30
  else 31

/-- Days from the start of the year to the start of month `m` (1-12). -/
def daysBeforeMonth (leap : Bool) : Nat → Nat
  | 0 => 0
  | m + 1 => if m = 0 then 0 else daysBeforeMonth leap m + daysInMonth leap m

/-- Days from the epoch (start of year 0) to the start of year `y`:
365 per year plus one per leap year in `[0, y)` (the closed form of the
Gregorian leap count). -/
def daysBeforeYear (y : Nat) : Nat :=
  365 * y + ((y + 3) / 4 - (y + 99) / 100 + (y + 399) / 400)

def msPerDay : Int := 86400000

/-- First instant of the month, in epoch milliseconds.  Embeds
`startOfMonth(parseMonthKey(monthKey))` from `src/lib/date.ts`. -/
def startOfMonthMillis (ym : YearMonth) : Int :=
  msPerDay * ((daysBeforeYear ym.year + daysBeforeMonth (isLeapYear ym.year) ym.month : Nat) : Int)

/-- The month following `ym`. -/
def nextYearMonth (ym : YearMonth) : YearMonth :=
  if ym.month ≥ 12 then ⟨ym.year + 1, 1⟩ else ⟨ym.year, ym.month + 1⟩

/-- Last instant of the month (`endOfMonth` of `date-fns` yields the
last millisecond, 23:59:59.999, i.e. the next month's first instant
minus one millisecond). -/
def endOfMonthMillis (ym : YearMonth) : Int :=
  startOfMonthMillis (nextYearMonth ym) - 1

/-- Embeds `getMonthDateRange` of `src/lib/date.ts`. -/
def getMonthDateRange (ym : YearMonth) : Int × Int :=
  (startOfMonthMillis ym, endOfMonthMillis ym)

/-- A month key denotes an actual calendar month. -/
def validYM (ym : YearMonth) : Prop := 1 ≤ ym.month ∧ ym.month ≤ 12

instance (ym : YearMonth) : Decidable (validYM ym) := by
  unfold validYM; infer_instance

/-- `date ∈ [start, end]` test used by every monthly aggregation query
(`date: { gte: start, lte: end }`). -/
def inMonthRange (ym : YearMonth) (d : Int) : Bool :=
  decide (startOfMonthMillis ym ≤ d) && decide (d ≤ endOfMonthMillis ym)

/-! ### Rows of the relational store -/

inductive TransactionType where
  | INCOME | EXPENSE | TRANSFER
deriving DecidableEq, Repr

inductive TransactionStatus where
  | POSTED | PLANNED | VOID
deriving DecidableEq, Repr

/-- A `BudgetGroup` row.  Row ids are naturals (the cuid strings of the
source are opaque identifiers; only equality and freshness matter). -/
structure BudgetGroup where
  id : Nat
  workspaceId : String
  name : String
  defaultPercent : ℚ
  color : Option String
  sortOrder : Nat
  isActive : Bool
deriving DecidableEq, Repr

/-- A `BudgetCategory` row (many-to-one with its owning group). -/
structure BudgetCategory where
  id : Nat
  workspaceId : String
  groupId : Nat
  isActive : Bool
deriving DecidableEq, Repr

/-- A `MonthlyBudgetPlan` row; (workspaceId, yearMonth) carries a unique
constraint in the schema. -/
structure MonthlyBudgetPlan where
  id : Nat
  workspaceId : String
  yearMonth : YearMonth
deriving DecidableEq, Repr

/-- A `MonthlyGroupAllocation` row; (planId, groupId) carries a unique
constraint in the schema. -/
structure MonthlyGroupAllocation where
  planId : Nat
  groupId : Nat
  percentSnapshot : ℚ
deriving DecidableEq, Repr

/-- A `Transaction` row restricted to the columns the budget domain
reads (account / installment columns are never consulted by the
aggregation queries). -/
structure Transaction where
  workspaceId : String
  date : Int
  amount : ℚ
  type : TransactionType
  status : TransactionStatus
  categoryId : Option Nat
deriving DecidableEq, Repr

/-- The relational store.  `nextId` is the id generator for newly
created rows. -/
structure DB where
  groups : List BudgetGroup
  categories : List BudgetCategory
  plans : List MonthlyBudgetPlan
  allocations : List MonthlyGroupAllocation
  transactions : List Transaction
  nextId : Nat
deriving DecidableEq, Repr

/-! ### Snapshot engine (`src/domain/budget.ts`) -/

/-- `prisma.monthlyBudgetPlan.findUnique` on the
(workspaceId, yearMonth) unique key. -/
def findUniquePlan (db : DB) (w : String) (ym : YearMonth) : Option MonthlyBudgetPlan :=
  db.plans.find? (fun p => p.workspaceId == w && p.yearMonth == ym)

/-- Stable insertion of a group into a list sorted by `sortOrder`. -/
def insertBySortOrder (g : BudgetGroup) : List BudgetGroup → List BudgetGroup
  | [] => [g]
  | h :: t => if g.sortOrder ≤ h.sortOrder then g :: h :: t else h :: insertBySortOrder g t

/-- Sort groups by `sortOrder` ascending (the `orderBy` of the query). -/
def sortBySortOrder (l : List BudgetGroup) : List BudgetGroup :=
  l.foldr insertBySortOrder []

/-- `prisma.budgetGroup.findMany({ where: { workspaceId, isActive: true },
orderBy: { sortOrder: "asc" } })`. -/
def activeGroups (db : DB) (w : String) : List BudgetGroup :=
  sortBySortOrder (db.groups.filter (fun g => g.workspaceId == w && g.isActive))

/-- All allocation rows of one plan. -/
def allocationsOfPlan (db : DB) (planId : Nat) : List MonthlyGroupAllocation :=
  db.allocations.filter (fun a => a.planId == planId)

/-- Embeds `ensureMonthlyPlanExists`: look the plan up by its unique
key and return its id, otherwise create the plan together with one
allocation per currently-active group, each snapshot copied from the
group's `defaultPercent` (a single atomic step of this transition
system, matching the one nested `create`). -/
def ensureMonthlyPlanExists (db : DB) (w : String) (ym : YearMonth) : DB × Nat :=
  match findUniquePlan db w ym with
  | some existingPlan => (db, existingPlan.id)
  | none =>
      let groups := activeGroups db w
      let planId := db.nextId
      let plan : MonthlyBudgetPlan := ⟨planId, w, ym⟩
      let allocs := groups.map (fun g =>
        ({ planId := planId, groupId := g.id, percentSnapshot := g.defaultPercent }
          : MonthlyGroupAllocation))
      ({ db with
          plans := db.plans ++ [plan]
          allocations := db.allocations ++ allocs
          nextId := db.nextId + 1 }, planId)

/-- Embeds `getMonthlyAllocations`: ensure the plan, re-fetch it, and
return its allocation rows. -/
def getMonthlyAllocations (db : DB) (w : String) (ym : YearMonth) :
    DB × List MonthlyGroupAllocation :=
  let res := ensureMonthlyPlanExists db w ym
  match findUniquePlan res.1 w ym with
  | some plan => (res.1, allocationsOfPlan res.1 plan.id)
  | none => (res.1, [])

/-- Embeds `updateMonthlyAllocation`: ensure the plan, then upsert the
allocation row keyed by the unique (planId, groupId) pair. -/
def updateMonthlyAllocation (db : DB) (w : String) (ym : YearMonth)
    (groupId : Nat) (newPercent : ℚ) : DB :=
  let res := ensureMonthlyPlanExists db w ym
  let db1 := res.1
  let planId := res.2
  if db1.allocations.any (fun a => a.planId == planId && a.groupId == groupId) then
    { db1 with
        allocations := db1.allocations.map (fun a =>
          if a.planId == planId && a.groupId == groupId then
            { a with percentSnapshot := newPercent }
          else a) }
  else
    { db1 with
        allocations := db1.allocations ++ [⟨planId, groupId, newPercent⟩] }

/-! ### Aggregation engine (`src/domain/budget.ts`) -/

/-- The `where` filter of `computeIncomeTotal` / `computeExpenseTotal`:
workspace, transaction type, `POSTED` status, and a date inside the
calendar-month range. -/
def monthTypeFilter (w : String) (ym : YearMonth) (ty : TransactionType)
    (t : Transaction) : Bool :=
  t.workspaceId == w && t.type == ty && t.status == TransactionStatus.POSTED
    && inMonthRange ym t.date

/-- Embeds `computeIncomeTotal`: the aggregate `_sum` of `amount` over
the filtered transactions (`?? 0` when the set is empty). -/
def computeIncomeTotal (db : DB) (w : String) (ym : YearMonth) : ℚ :=
  ((db.transactions.filter (monthTypeFilter w ym TransactionType.INCOME)).map
    (fun t => t.amount)).sum

/-- Embeds `computeExpenseTotal`. -/
def computeExpenseTotal (db : DB) (w : String) (ym : YearMonth) : ℚ :=
  ((db.transactions.filter (monthTypeFilter w ym TransactionType.EXPENSE)).map
    (fun t => t.amount)).sum

/-- The rows feeding the `groupBy(categoryId)` query of
`computeSpendingByGroup`: posted expenses of the month whose
`categoryId` is not null. -/
def spendingTxs (db : DB) (w : String) (ym : YearMonth) : List Transaction :=
  db.transactions.filter (fun t =>
    monthTypeFilter w ym TransactionType.EXPENSE t && t.categoryId.isSome)

/-- The distinct category ids produced by the `groupBy`. -/
def spendingCategoryIds (db : DB) (w : String) (ym : YearMonth) : List Nat :=
  ((spendingTxs db w ym).filterMap (fun t => t.categoryId)).dedup

/-- The `_sum.amount` of one `groupBy` bucket. -/
def categorySpend (db : DB) (w : String) (ym : YearMonth) (cid : Nat) : ℚ :=
  (((spendingTxs db w ym).filter (fun t => t.categoryId == some cid)).map
    (fun t => t.amount)).sum

/-- The category-to-group `Map` built from all categories of the
workspace; a JS `Map` keeps the last binding for a duplicated key, so
the fold overwrites earlier entries. -/
def categoryToGroup (db : DB) (w : String) (cid : Nat) : Option Nat :=
  ((db.categories.filter (fun c => c.workspaceId == w)).foldl
    (fun m c => fun x => if x == c.id then some c.groupId else m x)
    (fun _ => none)) cid

/-- Embeds `computeSpendingByGroup` as the resulting lookup function
with the `?? 0` default: the per-category sums of the buckets whose
category maps to `gid`, accumulated (the source accumulates them in a
loop over the buckets). -/
def computeSpendingByGroup (db : DB) (w : String) (ym : YearMonth) (gid : Nat) : ℚ :=
  (((spendingCategoryIds db w ym).filter
      (fun c => categoryToGroup db w c == some gid)).map
    (categorySpend db w ym)).sum

/-- Direct statement of the spec's wording for `computeSpendingByGroup`
("sums posted expense transactions within the month, re-aggregated by
the category's owning group"), to be compared with the source-shaped
definition above. -/
def spendingByGroupSpec (db : DB) (w : String) (ym : YearMonth) (gid : Nat) : ℚ :=
  ((db.transactions.filter (fun t =>
      monthTypeFilter w ym TransactionType.EXPENSE t
        && (t.categoryId.bind (categoryToGroup db w) == some gid))).map
    (fun t => t.amount)).sum

/-- `prisma.budgetGroup` lookup by primary key (the `include: { group }`
join of `getMonthlyAllocations`). -/
def lookupGroup (db : DB) (gid : Nat) : Option BudgetGroup :=
  db.groups.find? (fun g => g.id == gid)

/-- One element of the `MonthlyBudgetSummary[]` result. -/
structure MonthlyBudgetSummary where
  groupId : Nat
  groupName : String
  groupColor : Option String
  percentAllocation : ℚ
  budgetAmount : ℚ
  spentAmount : ℚ
  remainingAmount : ℚ
deriving DecidableEq, Repr

/-- Embeds `computeGroupBudgets`: ensure the plan and fetch its
allocations, compute the month's income total and spending map, then
build one summary per allocation. -/
def computeGroupBudgets (db : DB) (w : String) (ym : YearMonth) :
    DB × List MonthlyBudgetSummary :=
  let res := getMonthlyAllocations db w ym
  let db1 := res.1
  let incomeTotal := computeIncomeTotal db1 w ym
  (db1, res.2.map (fun allocation =>
    let percentAllocation := allocation.percentSnapshot
    let budgetAmount := incomeTotal * percentAllocation / 100
    let spentAmount := computeSpendingByGroup db1 w ym allocation.groupId
    let remainingAmount := budgetAmount - spentAmount
    { groupId := allocation.groupId
      groupName := ((lookupGroup db1 allocation.groupId).map (fun g => g.name)).getD ""
      groupColor := (lookupGroup db1 allocation.groupId).bind (fun g => g.color)
      percentAllocation := percentAllocation
      budgetAmount := budgetAmount
      spentAmount := spentAmount
      remainingAmount := remainingAmount }))

/-! ### Money utilities (`src/lib/currency.ts`) -/

/-- `Math.round` of JS: `⌊x + 1/2⌋` (round half toward positive
infinity). -/
def jsRound (x : ℚ) : Int := ⌊x + 1 / 2⌋

/-- Embeds `distributeAmount`.  The source performs no argument
validation: `Array(parts)` throws a `RangeError` when `parts` is a
negative length, and `parts = 0` simply yields the empty array (the
remainder fix-up is guarded by `parts > 0`). -/
def distributeAmount (totalAmount : ℚ) (parts : Int) : Except String (List ℚ) :=
  if parts < 0 then Except.error "RangeError"
  else
    let baseAmount : ℚ := (⌊totalAmount * 100 / (parts : ℚ)⌋ : ℚ) / 100
    let result : List ℚ := List.replicate parts.toNat baseAmount
    let totalCentsSoFar := jsRound (baseAmount * 100) * parts
    let totalCentsNeeded := jsRound (totalAmount * 100)
    let remainder := totalCentsNeeded - totalCentsSoFar
    if remainder ≠ 0 ∧ 0 < parts then
      Except.ok (result.dropLast ++
        [(jsRound ((result.getLast?.getD 0 + (remainder : ℚ) / 100) * 100) : ℚ) / 100])
    else Except.ok result

/-- Embeds `validatePercentages`. -/
def validatePercentages (percentages : List ℚ) : Bool × ℚ :=
  let total := percentages.foldl (fun sum p => sum + p) 0
  (decide (|total - 100| < 1 / 100), (jsRound (total * 100) : ℚ) / 100)

/-! ### Server actions (`src/server/actions/budgets.ts`).  The
authorization guards (`getCurrentUser`, `requireWorkspaceRole`,
`canAdmin`) sit outside the modeled core — the spec treats the
capability check as already passed — so the embeddings below are the
data mutations those actions perform once authorized. -/

/-- The optional fields of the `updateGroupSchema` payload. -/
structure UpdateGroupData where
  name : Option String
  defaultPercent : Option ℚ
  color : Option String
deriving DecidableEq, Repr

/-- Apply a validated partial payload to a group row (absent keys leave
the column untouched). -/
def applyGroupUpdate (d : UpdateGroupData) (g : BudgetGroup) : BudgetGroup :=
  { g with
      name := d.name.getD g.name
      defaultPercent := d.defaultPercent.getD g.defaultPercent
      color := match d.color with | some c => some c | none => g.color }

/-- Embeds `updateBudgetGroup`: verify the group belongs to the
workspace (otherwise respond "not found" and change nothing), then
update the row by primary key. -/
def updateBudgetGroup (db : DB) (w : String) (groupId : Nat)
    (d : UpdateGroupData) : DB :=
  if db.groups.any (fun g => g.id == groupId && g.workspaceId == w) then
    { db with
        groups := db.groups.map (fun g =>
          if g.id == groupId then applyGroupUpdate d g else g) }
  else db

/-- Embeds `updateGroupPercentages`: a transaction of one `updateMany`
per entry, each setting `defaultPercent` of the rows matching
(id, workspaceId). -/
def updateGroupPercentages (db : DB) (w : String)
    (percentages : List (Nat × ℚ)) : DB :=
  { db with
      groups := percentages.foldl
        (fun gs p => gs.map (fun g =>
          if g.id == p.1 && g.workspaceId == w then
            { g with defaultPercent := p.2 }
          else g))
        db.groups }

/-! ### The unique-constraint race of `ensureMonthlyPlanExists` -/

inductive DomainError where
  | conflictError
deriving DecidableEq, Repr

/-- `prisma.monthlyBudgetPlan.create`: the insert fails with a
unique-constraint conflict when a row with the same
(workspaceId, yearMonth) key already exists. -/
def createPlanWithAllocations (db : DB) (w : String) (ym : YearMonth) :
    Except DomainError (DB × Nat) :=
  match findUniquePlan db w ym with
  | some _ => Except.error DomainError.conflictError
  | none =>
      let groups := activeGroups db w
      let planId := db.nextId
      let plan : MonthlyBudgetPlan := ⟨planId, w, ym⟩
      let allocs := groups.map (fun g =>
        ({ planId := planId, groupId := g.id, percentSnapshot := g.defaultPercent }
          : MonthlyGroupAllocation))
      Except.ok ({ db with
          plans := db.plans ++ [plan]
          allocations := db.allocations ++ allocs
          nextId := db.nextId + 1 }, planId)

/-- `ensureMonthlyPlanExists` with an adversarial state change
`interference` committed by a concurrent request between the
`findUnique` check and the `create` — exactly the statement sequence of
the source, which wraps the create in no try/catch, so a conflict from
the insert propagates to the caller. -/
def ensureMonthlyPlanExistsRaced (db : DB) (w : String) (ym : YearMonth)
    (interference : DB → DB) : Except DomainError (DB × Nat) :=
  match findUniquePlan db w ym with
  | some existingPlan => Except.ok (db, existingPlan.id)
  | none => createPlanWithAllocations (interference db) w ym

/-! ### Small state-manipulation helpers and concrete fixtures -/

/-- Commit of a new group row (the data effect of `createBudgetGroup`). -/
def addGroup (db : DB) (g : BudgetGroup) : DB :=
  { db with groups := db.groups ++ [g] }

/-- Commit of a new transaction row. -/
def addTx (db : DB) (t : Transaction) : DB :=
  { db with transactions := t :: db.transactions }

/-- The plan rows matching one (workspaceId, yearMonth) key. -/
def plansForKey (db : DB) (w : String) (ym : YearMonth) : List MonthlyBudgetPlan :=
  db.plans.filter (fun p => p.workspaceId == w && p.yearMonth == ym)

def exGroup1 : BudgetGroup :=
  { id := 1, workspaceId := "w1", name := "Essentials", defaultPercent := 50
    color := none, sortOrder := 1, isActive := true }

def exCategory1 : BudgetCategory :=
  { id := 10, workspaceId := "w1", groupId := 1, isActive := true }

def exYM : YearMonth := ⟨2024, 3⟩

def exPlan : MonthlyBudgetPlan := { id := 7, workspaceId := "w1", yearMonth := exYM }

/-- A second group, inactive at snapshot time, so `exPlan` has no
allocation for it. -/
def exGroup2 : BudgetGroup :=
  { id := 2, workspaceId := "w1", name := "Lifestyle", defaultPercent := 30
    color := none, sortOrder := 2, isActive := false }

/-- Fixture with an already-existing plan for `exYM`. -/
def exDBWithPlan : DB :=
  { groups := [exGroup1, exGroup2], categories := [exCategory1], plans := [exPlan]
    allocations := [⟨7, 1, 50⟩], transactions := [], nextId := 8 }

/-- Fixture with one active group and no plan yet. -/
def exDBNoPlan : DB :=
  { groups := [exGroup1], categories := [exCategory1], plans := []
    allocations := [], transactions := [], nextId := 5 }

/-- An income of 1000 posted inside `exYM`. -/
def exIncomeTx : Transaction :=
  { workspaceId := "w1", date := startOfMonthMillis exYM, amount := 1000
    type := TransactionType.INCOME, status := TransactionStatus.POSTED
    categoryId := none }

/-- An expense of 600 posted inside `exYM` against category 10. -/
def exExpenseTx : Transaction :=
  { workspaceId := "w1", date := startOfMonthMillis exYM, amount := 600
    type := TransactionType.EXPENSE, status := TransactionStatus.POSTED
    categoryId := some 10 }

/-- Fixture for the budget-vs-actual example: income 1000, one group at
50 percent, 600 spent in it, no plan yet. -/
def exDBBudget : DB :=
  { groups := [exGroup1], categories := [exCategory1], plans := []
    allocations := [], transactions := [exIncomeTx, exExpenseTx], nextId := 5 }

/-- `exDBBudget` after the lazy plan creation for `exYM`. -/
def exDBBudgetAfter : DB :=
  { groups := [exGroup1], categories := [exCategory1]
    plans := [⟨5, "w1", exYM⟩], allocations := [⟨5, 1, 50⟩]
    transactions := [exIncomeTx, exExpenseTx], nextId := 6 }

/-! ## Theorems -/

theorem jsRound_intCast (c : Int) : jsRound (c : ℚ) = c := by
  unfold jsRound
  rw [Int.floor_int_add]
  norm_num

theorem base_mul_hundred (c : Int) : ((c : ℚ) / 100) * 100 = (c : ℚ) := by
  field_simp

/-- Closed form of `distributeAmount` for a positive number of parts:
`parts - 1` copies of the floored per-part amount followed by a last
element that absorbs the whole cent remainder. -/
theorem distributeAmount_closedForm (total : ℚ) (parts : Int) (hp : 0 < parts) :
    distributeAmount total parts = Except.ok
      (List.replicate (parts.toNat - 1) ((⌊total * 100 / (parts : ℚ)⌋ : ℚ) / 100) ++
        [((⌊total * 100 / (parts : ℚ)⌋ +
            (jsRound (total * 100) - ⌊total * 100 / (parts : ℚ)⌋ * parts) : Int) : ℚ) / 100]) := by
  obtain ⟨n, hn⟩ : ∃ n, parts.toNat = n + 1 := ⟨parts.toNat - 1, by omega⟩
  have hnn : ¬ parts < 0 := by omega
  simp only [distributeAmount]
  rw [if_neg hnn]
  set c : Int := ⌊total * 100 / (parts : ℚ)⌋ with hc
  rw [base_mul_hundred, jsRound_intCast, hn, List.replicate_succ', Nat.add_sub_cancel]
  by_cases h0 : jsRound (total * 100) - c * parts = 0
  · rw [if_neg (by simp [h0])]
    rw [h0]
    norm_num
  · rw [if_pos ⟨h0, hp⟩]
    rw [List.dropLast_concat, List.getLast?_concat]
    have harg : ((Option.some ((c : ℚ) / 100)).getD 0
          + ((jsRound (total * 100) - c * parts : Int) : ℚ) / 100) * 100
        = ((c + (jsRound (total * 100) - c * parts) : Int) : ℚ) := by
      simp only [Option.getD_some]
      push_cast
      ring
    rw [harg, jsRound_intCast]

/-- C8: for every `totalAmount` and every `parts > 0`, `distributeAmount`
returns a list of length `parts` whose sum is exactly `totalAmount`
rounded to 2 decimals, every element except possibly the last is
`totalAmount / parts` floored to 2 decimals, the last element carries
the entire cent remainder, and `distributeAmount 100 3` is
`[33.33, 33.33, 33.34]`. -/
theorem distributeAmount_parts_pos_spec (totalAmount : ℚ) (parts : Int) (hp : 0 < parts) :
    (∃ l, distributeAmount totalAmount parts = Except.ok l
      ∧ l.length = parts.toNat
      ∧ l.sum = (jsRound (totalAmount * 100) : ℚ) / 100
      ∧ (∀ x ∈ l.dropLast, x = (⌊totalAmount * 100 / (parts : ℚ)⌋ : ℚ) / 100)
      ∧ l.getLast?.getD 0 =
          ((⌊totalAmount * 100 / (parts : ℚ)⌋ +
            (jsRound (totalAmount * 100) - ⌊totalAmount * 100 / (parts : ℚ)⌋ * parts) : Int) : ℚ) / 100)
    ∧ distributeAmount 100 3 = Except.ok [33.33, 33.33, 33.34] := by
  constructor
  · obtain ⟨n, hn⟩ : ∃ n, parts.toNat = n + 1 := ⟨parts.toNat - 1, by omega⟩
    have hparts : parts = ((n + 1 : ℕ) : ℤ) := by omega
    set c : Int := ⌊totalAmount * 100 / (parts : ℚ)⌋ with hc
    refine ⟨_, distributeAmount_closedForm totalAmount parts hp, ?_, ?_, ?_, ?_⟩
    · simp [hn]
    · rw [hn]
      simp only [List.sum_append, List.sum_replicate, List.sum_cons, List.sum_nil,
        smul_eq_mul, Nat.add_sub_cancel]
      have : jsRound (totalAmount * 100) = c * parts + (jsRound (totalAmount * 100) - c * parts) := by
        ring
      rw [this, hparts]
      push_cast
      ring
    · intro x hx
      rw [hn, Nat.add_sub_cancel, List.dropLast_concat, List.mem_replicate] at hx
      exact hx.2
    · rw [List.getLast?_concat]
      rfl
  · rw [distributeAmount_closedForm 100 3 (by norm_num)]
    have hfloor : ⌊(100 : ℚ) * 100 / ((3 : Int) : ℚ)⌋ = 3333 := by
      rw [Int.floor_eq_iff]
      norm_num
    have hround : jsRound ((100 : ℚ) * 100) = 10000 := by
      unfold jsRound
      rw [Int.floor_eq_iff]
      norm_num
    rw [hfloor, hround]
    norm_num
    rfl

/-- C9 counterexample: at `totalAmount = 100`, `parts = 0` (so
`parts ≤ 0`), `distributeAmount` does not fail — it returns the empty
list. -/
theorem distributeAmount_zero_parts_returns :
    distributeAmount 100 0 = Except.ok [] := by
  simp [distributeAmount]

/-- C9 amended: `distributeAmount` performs no argument validation:
`parts = 0` succeeds with the empty list for every `totalAmount`, and a
negative `parts` fails with the `RangeError` of the JS array
constructor, not with a domain `InvalidArgument` error. -/
theorem distributeAmount_no_validation :
    (∀ t : ℚ, distributeAmount t 0 = Except.ok [])
    ∧ (∀ (t : ℚ) (p : Int), p < 0 → distributeAmount t p = Except.error "RangeError") := by
  constructor
  · intro t
    unfold distributeAmount
    rw [if_neg (by omega)]
    simp
  · intro t p hp
    unfold distributeAmount
    rw [if_pos hp]

/-- Witness for C9's amended theorem at `t = 3`, `p = -1`. -/
theorem distributeAmount_no_validation_witness :
    distributeAmount 3 (-1) = Except.error "RangeError" :=
  distributeAmount_no_validation.2 3 (-1) (by norm_num)

/-- Fast path of `ensureMonthlyPlanExists`: an existing plan is
returned as is. -/
theorem ensureMonthlyPlanExists_found (db : DB) (w : String) (ym : YearMonth)
    (p : MonthlyBudgetPlan) (h : findUniquePlan db w ym = some p) :
    ensureMonthlyPlanExists db w ym = (db, p.id) := by
  unfold ensureMonthlyPlanExists
  rw [h]

/-- Unfolding of the creation branch of `ensureMonthlyPlanExists`. -/
theorem ensure_creates (db : DB) (w : String) (ym : YearMonth)
    (h : findUniquePlan db w ym = none) :
    ensureMonthlyPlanExists db w ym =
      ({ db with
          plans := db.plans ++ [⟨db.nextId, w, ym⟩]
          allocations := db.allocations ++ (activeGroups db w).map (fun g =>
            ({ planId := db.nextId, groupId := g.id, percentSnapshot := g.defaultPercent }
              : MonthlyGroupAllocation))
          nextId := db.nextId + 1 }, db.nextId) := by
  unfold ensureMonthlyPlanExists
  rw [h]

/-- After the creation branch runs, the unique-key lookup finds exactly
the row just created. -/
theorem findUniquePlan_after_create (db : DB) (w : String) (ym : YearMonth)
    (h : findUniquePlan db w ym = none) :
    findUniquePlan (ensureMonthlyPlanExists db w ym).1 w ym
      = some ⟨db.nextId, w, ym⟩ := by
  rw [ensure_creates db w ym h]
  unfold findUniquePlan at h ⊢
  dsimp only
  rw [List.find?_append, h]
  simp

/-- C1: `ensureMonthlyPlanExists` is idempotent — when a plan for the
(workspaceId, yearMonth) key exists the call returns its id and leaves
the store untouched, a second call always returns the same planId and
the same state as the first, and the number of plans per key never
grows beyond one. -/
theorem ensureMonthlyPlanExists_idempotent :
    (∀ (db : DB) (w : String) (ym : YearMonth) (p : MonthlyBudgetPlan),
        findUniquePlan db w ym = some p →
        ensureMonthlyPlanExists db w ym = (db, p.id))
    ∧ (∀ (db : DB) (w : String) (ym : YearMonth),
        ensureMonthlyPlanExists (ensureMonthlyPlanExists db w ym).1 w ym
          = ensureMonthlyPlanExists db w ym)
    ∧ (∀ (db : DB) (w : String) (ym : YearMonth),
        (plansForKey db w ym).length ≤ 1 →
        (plansForKey (ensureMonthlyPlanExists db w ym).1 w ym).length ≤ 1) := by
  have hfast := ensureMonthlyPlanExists_found
  refine ⟨hfast, ?_, ?_⟩
  · intro db w ym
    cases h : findUniquePlan db w ym with
    | some p =>
        rw [hfast db w ym p h]
        exact hfast db w ym p h
    | none =>
        have hfind := findUniquePlan_after_create db w ym h
        rw [hfast _ w ym _ hfind, ensure_creates db w ym h]
  · intro db w ym hle
    cases h : findUniquePlan db w ym with
    | some p => rw [hfast db w ym p h]; exact hle
    | none =>
        rw [ensure_creates db w ym h]
        unfold plansForKey at hle ⊢
        unfold findUniquePlan at h
        dsimp only
        rw [List.filter_append, List.filter_eq_nil_iff.mpr (by
          intro a ha
          have := List.find?_eq_none.mp h a ha
          simpa using this)]
        simp

/-- Witness for C1 on a store that already has a plan for the key. -/
theorem ensureMonthlyPlanExists_idempotent_witness :
    ensureMonthlyPlanExists exDBWithPlan "w1" exYM = (exDBWithPlan, exPlan.id) :=
  ensureMonthlyPlanExists_idempotent.1 exDBWithPlan "w1" exYM exPlan (by decide)

/-- The allocations of the plan created by the creation branch are
exactly the active groups' snapshots. -/
theorem allocationsOfPlan_after_create (db : DB) (w : String) (ym : YearMonth)
    (habsent : findUniquePlan db w ym = none)
    (hfresh : ∀ a ∈ db.allocations, a.planId ≠ db.nextId) :
    allocationsOfPlan (ensureMonthlyPlanExists db w ym).1 db.nextId
      = (activeGroups db w).map (fun g =>
          ({ planId := db.nextId, groupId := g.id, percentSnapshot := g.defaultPercent }
            : MonthlyGroupAllocation)) := by
  rw [ensure_creates db w ym habsent]
  unfold allocationsOfPlan
  dsimp only
  rw [List.filter_append, List.filter_eq_nil_iff.mpr (by
      intro a ha
      simpa using hfresh a ha),
    List.filter_eq_self.mpr (by
      intro a ha
      obtain ⟨g, _, rfl⟩ := List.mem_map.mp ha
      simp)]
  simp

/-- C2: when `ensureMonthlyPlanExists` creates the plan, the created
plan carries exactly one allocation per group active at creation time,
each snapshot equal to that group's current `defaultPercent` (the plan
and its allocations appear in the same atomic step of this transition
system), and a group added afterwards changes neither the plan's
allocation set nor the result of a later call for the same month. -/
theorem ensureMonthlyPlanExists_snapshot (db : DB) (w : String) (ym : YearMonth)
    (habsent : findUniquePlan db w ym = none)
    (hfresh : ∀ a ∈ db.allocations, a.planId ≠ db.nextId) :
    (ensureMonthlyPlanExists db w ym).2 = db.nextId
    ∧ findUniquePlan (ensureMonthlyPlanExists db w ym).1 w ym
        = some ⟨db.nextId, w, ym⟩
    ∧ allocationsOfPlan (ensureMonthlyPlanExists db w ym).1 db.nextId
        = (activeGroups db w).map (fun g =>
            ({ planId := db.nextId, groupId := g.id, percentSnapshot := g.defaultPercent }
              : MonthlyGroupAllocation))
    ∧ (∀ g' : BudgetGroup,
        ensureMonthlyPlanExists (addGroup (ensureMonthlyPlanExists db w ym).1 g') w ym
          = (addGroup (ensureMonthlyPlanExists db w ym).1 g', db.nextId)
        ∧ allocationsOfPlan (addGroup (ensureMonthlyPlanExists db w ym).1 g') db.nextId
          = allocationsOfPlan (ensureMonthlyPlanExists db w ym).1 db.nextId) := by
  have hfind := findUniquePlan_after_create db w ym habsent
  refine ⟨by rw [ensure_creates db w ym habsent], hfind,
    allocationsOfPlan_after_create db w ym habsent hfresh, ?_⟩
  · intro g'
    have hfind' : findUniquePlan (addGroup (ensureMonthlyPlanExists db w ym).1 g') w ym
        = some ⟨db.nextId, w, ym⟩ := hfind
    constructor
    · exact ensureMonthlyPlanExists_found _ w ym _ hfind'
    · rfl

/-- Witness for C2 on a store with one active group and no plan. -/
theorem ensureMonthlyPlanExists_snapshot_witness :
    allocationsOfPlan (ensureMonthlyPlanExists exDBNoPlan "w1" exYM).1 exDBNoPlan.nextId
      = (activeGroups exDBNoPlan "w1").map (fun g =>
          ({ planId := exDBNoPlan.nextId, groupId := g.id, percentSnapshot := g.defaultPercent }
            : MonthlyGroupAllocation)) :=
  (ensureMonthlyPlanExists_snapshot exDBNoPlan "w1" exYM (by decide) (by decide)).2.2.1

/-- Witness for C8 at `totalAmount = 100`, `parts = 3`. -/
theorem distributeAmount_parts_pos_spec_witness :
    (∃ l, distributeAmount 100 3 = Except.ok l
      ∧ l.length = (3 : Int).toNat
      ∧ l.sum = (jsRound (100 * 100) : ℚ) / 100
      ∧ (∀ x ∈ l.dropLast, x = (⌊(100 : ℚ) * 100 / ((3 : Int) : ℚ)⌋ : ℚ) / 100)
      ∧ l.getLast?.getD 0 =
          ((⌊(100 : ℚ) * 100 / ((3 : Int) : ℚ)⌋ +
            (jsRound (100 * 100) - ⌊(100 : ℚ) * 100 / ((3 : Int) : ℚ)⌋ * 3) : Int) : ℚ) / 100)
    ∧ distributeAmount 100 3 = Except.ok [33.33, 33.33, 33.34] :=
  distributeAmount_parts_pos_spec 100 3 (by norm_num)

theorem mem_insertBySortOrder (g x : BudgetGroup) (l : List BudgetGroup) :
    x ∈ insertBySortOrder g l ↔ x = g ∨ x ∈ l := by
  induction l with
  | nil => simp [insertBySortOrder]
  | cons h t ih =>
      unfold insertBySortOrder
      by_cases hle : g.sortOrder ≤ h.sortOrder
      · rw [if_pos hle]
        simp
      · rw [if_neg hle]
        simp only [List.mem_cons, ih]
        tauto

theorem mem_sortBySortOrder (x : BudgetGroup) (l : List BudgetGroup) :
    x ∈ sortBySortOrder l ↔ x ∈ l := by
  induction l with
  | nil => simp [sortBySortOrder]
  | cons h t ih =>
      show x ∈ insertBySortOrder h (sortBySortOrder t) ↔ _
      rw [mem_insertBySortOrder]
      simp [ih]

theorem mem_activeGroups (db : DB) (w : String) (g : BudgetGroup) :
    g ∈ activeGroups db w ↔ g ∈ db.groups ∧ g.workspaceId = w ∧ g.isActive = true := by
  unfold activeGroups
  rw [mem_sortBySortOrder, List.mem_filter]
  simp [and_assoc]

/-- `ensureMonthlyPlanExists` never touches the groups table. -/
theorem ensure_groups_frame (db : DB) (w : String) (ym : YearMonth) :
    (ensureMonthlyPlanExists db w ym).1.groups = db.groups := by
  cases h : findUniquePlan db w ym with
  | some p => rw [ensureMonthlyPlanExists_found db w ym p h]
  | none => rw [ensure_creates db w ym h]

/-- `ensureMonthlyPlanExists` never touches the transactions table. -/
theorem ensure_transactions_frame (db : DB) (w : String) (ym : YearMonth) :
    (ensureMonthlyPlanExists db w ym).1.transactions = db.transactions := by
  cases h : findUniquePlan db w ym with
  | some p => rw [ensureMonthlyPlanExists_found db w ym p h]
  | none => rw [ensure_creates db w ym h]

/-- `ensureMonthlyPlanExists` never touches the categories table. -/
theorem ensure_categories_frame (db : DB) (w : String) (ym : YearMonth) :
    (ensureMonthlyPlanExists db w ym).1.categories = db.categories := by
  cases h : findUniquePlan db w ym with
  | some p => rw [ensureMonthlyPlanExists_found db w ym p h]
  | none => rw [ensure_creates db w ym h]

/-- C3: live configuration and monthly snapshots are isolated —
`updateGroupPercentages` and `updateBudgetGroup` leave every stored
allocation (and every plan) untouched; a plan created for a fresh month
after `updateGroupPercentages db w [(gid, pct)]` snapshots the updated
default `pct` for group `gid`; and `updateMonthlyAllocation` never
touches the groups table, while every allocation row other than the
(planId, groupId) one survives unchanged. -/
theorem config_snapshot_isolation :
    (∀ (db : DB) (w : String) (ps : List (Nat × ℚ)),
        (updateGroupPercentages db w ps).allocations = db.allocations
        ∧ (updateGroupPercentages db w ps).plans = db.plans)
    ∧ (∀ (db : DB) (w : String) (gid : Nat) (d : UpdateGroupData),
        (updateBudgetGroup db w gid d).allocations = db.allocations
        ∧ (updateBudgetGroup db w gid d).plans = db.plans)
    ∧ (∀ (db : DB) (w : String) (gid : Nat) (pct : ℚ) (ym : YearMonth),
        findUniquePlan (updateGroupPercentages db w [(gid, pct)]) w ym = none →
        (∀ a ∈ db.allocations, a.planId ≠ db.nextId) →
        ∀ a ∈ allocationsOfPlan
            (ensureMonthlyPlanExists (updateGroupPercentages db w [(gid, pct)]) w ym).1
            db.nextId,
          a.groupId = gid → a.percentSnapshot = pct)
    ∧ (∀ (db : DB) (w : String) (ym : YearMonth) (gid : Nat) (pct : ℚ),
        (updateMonthlyAllocation db w ym gid pct).groups = db.groups)
    ∧ (∀ (db : DB) (w : String) (ym : YearMonth) (gid : Nat) (pct : ℚ)
          (a : MonthlyGroupAllocation),
        a ∈ (ensureMonthlyPlanExists db w ym).1.allocations →
        ¬(a.planId = (ensureMonthlyPlanExists db w ym).2 ∧ a.groupId = gid) →
        a ∈ (updateMonthlyAllocation db w ym gid pct).allocations) := by
  refine ⟨fun db w ps => ⟨rfl, rfl⟩, ?_, ?_, ?_, ?_⟩
  · intro db w gid d
    unfold updateBudgetGroup
    split
    · exact ⟨rfl, rfl⟩
    · exact ⟨rfl, rfl⟩
  · intro db w gid pct ym habsent hfresh a ha hgid
    have hfresh' : ∀ a ∈ (updateGroupPercentages db w [(gid, pct)]).allocations,
        a.planId ≠ (updateGroupPercentages db w [(gid, pct)]).nextId := hfresh
    have key := allocationsOfPlan_after_create (updateGroupPercentages db w [(gid, pct)])
      w ym habsent hfresh'
    have ha2 : a ∈ (activeGroups (updateGroupPercentages db w [(gid, pct)]) w).map (fun g =>
        ({ planId := (updateGroupPercentages db w [(gid, pct)]).nextId, groupId := g.id,
            percentSnapshot := g.defaultPercent } : MonthlyGroupAllocation)) := by
      rw [← key]
      exact ha
    obtain ⟨g, hg, rfl⟩ := List.mem_map.mp ha2
    obtain ⟨hgmem, hgw, _⟩ := (mem_activeGroups _ w g).mp hg
    obtain ⟨g0, _, hq⟩ := List.mem_map.mp hgmem
    by_cases hcond : (g0.id == gid && g0.workspaceId == w) = true
    · rw [if_pos hcond] at hq
      rw [← hq]
    · rw [if_neg hcond] at hq
      exfalso
      apply hcond
      subst hq
      simp only [Bool.and_eq_true, beq_iff_eq]
      exact ⟨hgid, hgw⟩
  · intro db w ym gid pct
    simp only [updateMonthlyAllocation]
    split
    · exact ensure_groups_frame db w ym
    · exact ensure_groups_frame db w ym
  · intro db w ym gid pct a ha hne
    simp only [updateMonthlyAllocation]
    split
    · refine List.mem_map.mpr ⟨a, ha, ?_⟩
      rw [if_neg (by
        simp only [Bool.and_eq_true, beq_iff_eq]
        exact hne)]
    · exact List.mem_append_left _ ha

/-- Witness for C3: after setting group 1's default to 30, the plan
created for a fresh month snapshots 30. -/
theorem config_snapshot_isolation_witness :
    ∀ a ∈ allocationsOfPlan
        (ensureMonthlyPlanExists (updateGroupPercentages exDBNoPlan "w1" [(1, 30)]) "w1" exYM).1
        exDBNoPlan.nextId,
      a.groupId = 1 → a.percentSnapshot = 30 :=
  config_snapshot_isolation.2.2.1 exDBNoPlan "w1" 1 30 exYM (by decide) (by decide)

/-- C10: when the month's plan exists but has no allocation row for
`gid`, `updateMonthlyAllocation` succeeds and inserts the
(planId, gid, newPercent) row, leaving all existing allocations in
place — a plan's allocation set can grow through the override path. -/
theorem updateMonthlyAllocation_inserts (db : DB) (w : String) (ym : YearMonth)
    (gid : Nat) (pct : ℚ) (p : MonthlyBudgetPlan)
    (hplan : findUniquePlan db w ym = some p)
    (_hgroup : ∃ g ∈ db.groups, g.id = gid)
    (hnone : ∀ a ∈ db.allocations, ¬(a.planId = p.id ∧ a.groupId = gid)) :
    (updateMonthlyAllocation db w ym gid pct).allocations
      = db.allocations ++ [⟨p.id, gid, pct⟩]
    ∧ (⟨p.id, gid, pct⟩ : MonthlyGroupAllocation)
        ∈ (updateMonthlyAllocation db w ym gid pct).allocations := by
  have heq : (updateMonthlyAllocation db w ym gid pct).allocations
      = db.allocations ++ [⟨p.id, gid, pct⟩] := by
    unfold updateMonthlyAllocation
    rw [ensureMonthlyPlanExists_found db w ym p hplan]
    rw [if_neg (by
      simp only [List.any_eq_true, Bool.and_eq_true, beq_iff_eq, not_exists]
      intro a
      intro hcontra
      exact hnone a hcontra.1 ⟨hcontra.2.1, hcontra.2.2⟩)]
  exact ⟨heq, by rw [heq]; simp⟩

/-- Witness for C10: group 2 was inactive when `exPlan` was created, so
the plan has no row for it; the override inserts (7, 2, 25). -/
theorem updateMonthlyAllocation_inserts_witness :
    (updateMonthlyAllocation exDBWithPlan "w1" exYM 2 25).allocations
      = exDBWithPlan.allocations ++ [⟨exPlan.id, 2, 25⟩]
    ∧ (⟨exPlan.id, 2, 25⟩ : MonthlyGroupAllocation)
        ∈ (updateMonthlyAllocation exDBWithPlan "w1" exYM 2 25).allocations :=
  updateMonthlyAllocation_inserts exDBWithPlan "w1" exYM 2 25 exPlan
    (by decide) (by decide) (by decide)

/-- C4 (divergence witnessed): `ensureMonthlyPlanExists` wraps its
`create` in no try/catch, so when a rival request commits the plan for
(w1, 2024-03) between the `findUnique` check and the insert, the
unique-constraint `ConflictError` propagates to the caller instead of
being recovered by a re-fetch. -/
theorem ensureMonthlyPlanExists_race_propagates :
    ensureMonthlyPlanExistsRaced exDBNoPlan "w1" exYM
        (fun d => (ensureMonthlyPlanExists d "w1" exYM).1)
      = Except.error DomainError.conflictError := by
  have hnone : findUniquePlan exDBNoPlan "w1" exYM = none := by decide
  have hrival : findUniquePlan (ensureMonthlyPlanExists exDBNoPlan "w1" exYM).1 "w1" exYM
      = some ⟨exDBNoPlan.nextId, "w1", exYM⟩ :=
    findUniquePlan_after_create exDBNoPlan "w1" exYM hnone
  unfold ensureMonthlyPlanExistsRaced
  rw [hnone]
  unfold createPlanWithAllocations
  rw [hrival]

/-- The income filter in `Prop` form. -/
theorem monthTypeFilter_iff (w : String) (ym : YearMonth) (ty : TransactionType)
    (t : Transaction) :
    monthTypeFilter w ym ty t = true ↔
      t.workspaceId = w ∧ t.type = ty ∧ t.status = TransactionStatus.POSTED
      ∧ startOfMonthMillis ym ≤ t.date ∧ t.date ≤ endOfMonthMillis ym := by
  unfold monthTypeFilter inMonthRange
  simp [and_assoc]

/-- Prepending one transaction changes a month total by its amount
exactly when it passes the filter. -/
theorem total_addTx (db : DB) (w : String) (ym : YearMonth) (ty : TransactionType)
    (t : Transaction) :
    (((addTx db t).transactions.filter (monthTypeFilter w ym ty)).map
        (fun t => t.amount)).sum
      = (if monthTypeFilter w ym ty t then t.amount else 0)
        + ((db.transactions.filter (monthTypeFilter w ym ty)).map
            (fun t => t.amount)).sum := by
  unfold addTx
  dsimp only
  by_cases h : monthTypeFilter w ym ty t = true
  · rw [List.filter_cons_of_pos h, if_pos h]
    simp
  · rw [List.filter_cons_of_neg h, if_neg h]
    simp

/-- C5: each summary of `computeGroupBudgets` satisfies
`budgetAmount = incomeTotal * percentSnapshot / 100`,
`spentAmount = spending map value (0 when absent)` and
`remainingAmount = budgetAmount - spentAmount` with no clamping; with
zero income every budget is 0; and on the concrete fixture
(income 1000, snapshot 50, spent 600) the summary is
(500, 600, -100). -/
theorem computeGroupBudgets_formula :
    (∀ (db : DB) (w : String) (ym : YearMonth) (s : MonthlyBudgetSummary),
        s ∈ (computeGroupBudgets db w ym).2 →
        s.budgetAmount
            = computeIncomeTotal (computeGroupBudgets db w ym).1 w ym
              * s.percentAllocation / 100
        ∧ s.spentAmount
            = computeSpendingByGroup (computeGroupBudgets db w ym).1 w ym s.groupId
        ∧ s.remainingAmount = s.budgetAmount - s.spentAmount)
    ∧ (∀ (db : DB) (w : String) (ym : YearMonth),
        computeIncomeTotal (computeGroupBudgets db w ym).1 w ym = 0 →
        ∀ s ∈ (computeGroupBudgets db w ym).2, s.budgetAmount = 0)
    ∧ (computeGroupBudgets exDBBudget "w1" exYM).2
        = [{ groupId := 1, groupName := "Essentials", groupColor := none
             percentAllocation := 50, budgetAmount := 500
             spentAmount := 600, remainingAmount := -100 }] := by
  have main : ∀ (db : DB) (w : String) (ym : YearMonth) (s : MonthlyBudgetSummary),
      s ∈ (computeGroupBudgets db w ym).2 →
      s.budgetAmount
          = computeIncomeTotal (computeGroupBudgets db w ym).1 w ym
            * s.percentAllocation / 100
      ∧ s.spentAmount
          = computeSpendingByGroup (computeGroupBudgets db w ym).1 w ym s.groupId
      ∧ s.remainingAmount = s.budgetAmount - s.spentAmount := by
    intro db w ym s hs
    simp only [computeGroupBudgets] at hs ⊢
    obtain ⟨a, _, rfl⟩ := List.mem_map.mp hs
    exact ⟨rfl, rfl, rfl⟩
  refine ⟨main, ?_, ?_⟩
  · intro db w ym hz s hs
    rw [(main db w ym s hs).1, hz]
    ring
  · have h1 : getMonthlyAllocations exDBBudget "w1" exYM
        = (exDBBudgetAfter, [⟨5, 1, 50⟩]) := by decide
    have h2 : computeIncomeTotal exDBBudgetAfter "w1" exYM = 1000 := by
      unfold computeIncomeTotal
      rw [show exDBBudgetAfter.transactions.filter
            (monthTypeFilter "w1" exYM TransactionType.INCOME) = [exIncomeTx] from by decide]
      simp [exIncomeTx]
    have h3 : computeSpendingByGroup exDBBudgetAfter "w1" exYM 1 = 600 := by
      unfold computeSpendingByGroup
      rw [show (spendingCategoryIds exDBBudgetAfter "w1" exYM).filter
            (fun c => categoryToGroup exDBBudgetAfter "w1" c == some 1) = [10] from by decide]
      have hcat : categorySpend exDBBudgetAfter "w1" exYM 10 = 600 := by
        unfold categorySpend
        rw [show (spendingTxs exDBBudgetAfter "w1" exYM).filter
              (fun t => t.categoryId == some 10) = [exExpenseTx] from by decide]
        simp [exExpenseTx]
      simp [hcat]
    have h4 : lookupGroup exDBBudgetAfter 1 = some exGroup1 := by decide
    simp only [computeGroupBudgets, h1, List.map_cons, List.map_nil]
    rw [h2, h3, h4]
    norm_num [exGroup1]

theorem daysInMonth_pos (leap : Bool) (m : Nat) : 0 < daysInMonth leap m := by
  unfold daysInMonth
  split
  · split <;> omega
  · split <;> omega

theorem daysBeforeMonth_succ (leap : Bool) (m : Nat) (h : 1 ≤ m) :
    daysBeforeMonth leap (m + 1) = daysBeforeMonth leap m + daysInMonth leap m := by
  obtain ⟨k, rfl⟩ : ∃ k, m = k + 1 := ⟨m - 1, by omega⟩
  have hstep : daysBeforeMonth leap (k + 1 + 1)
      = if k + 1 = 0 then 0
        else daysBeforeMonth leap (k + 1) + daysInMonth leap (k + 1) := rfl
  rw [hstep, if_neg (by omega)]

/-- A valid month occupies a nonempty span: its first instant precedes
the next month's first instant. -/
theorem monthStart_lt_next (ym : YearMonth) (h : validYM ym) :
    startOfMonthMillis ym < startOfMonthMillis (nextYearMonth ym) := by
  obtain ⟨h1, h12⟩ := h
  unfold startOfMonthMillis nextYearMonth msPerDay
  by_cases hm : ym.month ≥ 12
  · have hmeq : ym.month = 12 := le_antisymm h12 hm
    rw [if_pos hm, hmeq]
    show (86400000 : Int)
          * ((daysBeforeYear ym.year + daysBeforeMonth (isLeapYear ym.year) 12 : Nat) : Int)
        < 86400000
          * ((daysBeforeYear (ym.year + 1)
              + daysBeforeMonth (isLeapYear (ym.year + 1)) 1 : Nat) : Int)
    have hyear : daysBeforeYear ym.year + 365 ≤ daysBeforeYear (ym.year + 1) := by
      unfold daysBeforeYear
      omega
    have k12 : daysBeforeMonth (isLeapYear ym.year) 12 ≤ 335 := by
      cases hL : isLeapYear ym.year <;> decide
    rw [show daysBeforeMonth (isLeapYear (ym.year + 1)) 1 = 0 from rfl]
    omega
  · rw [if_neg hm]
    show (86400000 : Int)
          * ((daysBeforeYear ym.year + daysBeforeMonth (isLeapYear ym.year) ym.month : Nat) : Int)
        < 86400000
          * ((daysBeforeYear ym.year
              + daysBeforeMonth (isLeapYear ym.year) (ym.month + 1) : Nat) : Int)
    have hmonth := daysBeforeMonth_succ (isLeapYear ym.year) ym.month h1
    have hpos := daysInMonth_pos (isLeapYear ym.year) ym.month
    omega

/-- C6: `computeIncomeTotal` / `computeExpenseTotal` sum exactly the
transactions matching workspace, type, `POSTED` status (planned and
void contribute nothing), and a date within the calendar month
inclusively: a transaction dated at the first or last instant of the
month passes the date filter, one dated one instant outside either
boundary does not. -/
theorem monthTotals_calendar_spec :
    (∀ (db : DB) (w : String) (ym : YearMonth) (t : Transaction),
        computeIncomeTotal (addTx db t) w ym
          = (if monthTypeFilter w ym TransactionType.INCOME t then t.amount else 0)
            + computeIncomeTotal db w ym)
    ∧ (∀ (db : DB) (w : String) (ym : YearMonth) (t : Transaction),
        computeExpenseTotal (addTx db t) w ym
          = (if monthTypeFilter w ym TransactionType.EXPENSE t then t.amount else 0)
            + computeExpenseTotal db w ym)
    ∧ (∀ (w : String) (ym : YearMonth) (ty : TransactionType) (t : Transaction),
        monthTypeFilter w ym ty t = true ↔
          t.workspaceId = w ∧ t.type = ty ∧ t.status = TransactionStatus.POSTED
          ∧ startOfMonthMillis ym ≤ t.date ∧ t.date ≤ endOfMonthMillis ym)
    ∧ (∀ ym : YearMonth, validYM ym →
        inMonthRange ym (startOfMonthMillis ym) = true
        ∧ inMonthRange ym (endOfMonthMillis ym) = true
        ∧ inMonthRange ym (startOfMonthMillis ym - 1) = false
        ∧ inMonthRange ym (endOfMonthMillis ym + 1) = false) := by
  refine ⟨?_, ?_, monthTypeFilter_iff, ?_⟩
  · intro db w ym t
    exact total_addTx db w ym TransactionType.INCOME t
  · intro db w ym t
    exact total_addTx db w ym TransactionType.EXPENSE t
  · intro ym h
    have hlt := monthStart_lt_next ym h
    unfold inMonthRange endOfMonthMillis
    refine ⟨?_, ?_, ?_, ?_⟩
    · simp only [Bool.and_eq_true, decide_eq_true_eq]
      omega
    · simp only [Bool.and_eq_true, decide_eq_true_eq]
      omega
    · simp only [Bool.and_eq_false_iff, decide_eq_false_iff_not]
      omega
    · simp only [Bool.and_eq_false_iff, decide_eq_false_iff_not]
      omega

/-- Summing per-category buckets over the categories satisfying `P`
equals summing the underlying transactions whose category satisfies
`P`, whenever the bucket list is duplicate-free and covers every
transaction's category. -/
theorem sum_by_category (P : Nat → Bool) :
    ∀ (cats : List Nat) (L : List Transaction), cats.Nodup →
      (∀ t ∈ L, ∃ c, t.categoryId = some c ∧ c ∈ cats) →
      ((cats.filter P).map (fun c =>
          ((L.filter (fun t => t.categoryId == some c)).map (fun t => t.amount)).sum)).sum
        = ((L.filter (fun t =>
            match t.categoryId with
            | some c => P c
            | none => false)).map (fun t => t.amount)).sum := by
  intro cats
  induction cats with
  | nil =>
      intro L _ hcov
      have hnil : L.filter (fun t =>
          match t.categoryId with
          | some c => P c
          | none => false) = [] := by
        rw [List.filter_eq_nil_iff]
        intro t ht
        obtain ⟨c, _, hmem⟩ := hcov t ht
        simp at hmem
      rw [hnil]
      simp
  | cons c cs ih =>
      intro L hnd hcov
      have hcnotin : c ∉ cs := (List.nodup_cons.mp hnd).1
      have hndcs : cs.Nodup := (List.nodup_cons.mp hnd).2
      have hcov2 : ∀ t ∈ L.filter (fun t => !(t.categoryId == some c)),
          ∃ c', t.categoryId = some c' ∧ c' ∈ cs := by
        intro t ht
        obtain ⟨htL, htne⟩ := List.mem_filter.mp ht
        obtain ⟨c', hc', hmem⟩ := hcov t htL
        refine ⟨c', hc', ?_⟩
        rcases List.mem_cons.mp hmem with hceq | hin
        · exfalso
          rw [hceq] at hc'
          rw [hc'] at htne
          simp at htne
        · exact hin
      have hsplit : ((L.filter (fun t =>
            match t.categoryId with
            | some c => P c
            | none => false)).map (fun t => t.amount)).sum
          = (((L.filter (fun t => t.categoryId == some c)).filter (fun t =>
                match t.categoryId with
                | some c => P c
                | none => false)).map (fun t => t.amount)).sum
            + (((L.filter (fun t => !(t.categoryId == some c))).filter (fun t =>
                match t.categoryId with
                | some c => P c
                | none => false)).map (fun t => t.amount)).sum := by
        have hperm : L.Perm
            (L.filter (fun t => t.categoryId == some c)
              ++ L.filter (fun t => !(t.categoryId == some c))) :=
          (List.filter_append_perm (fun t => t.categoryId == some c) L).symm
        have hp2 := List.Perm.filter (fun t =>
            match t.categoryId with
            | some c => P c
            | none => false) hperm
        have hs := (List.Perm.map (fun t => t.amount) hp2).sum_eq
        rw [hs, List.filter_append, List.map_append, List.sum_append]
      have hbuckets : ∀ c' ∈ cs.filter P,
          ((L.filter (fun t => t.categoryId == some c')).map (fun t => t.amount)).sum
            = (((L.filter (fun t => !(t.categoryId == some c))).filter
                (fun t => t.categoryId == some c')).map (fun t => t.amount)).sum := by
        intro c' hc'
        have hne : c' ≠ c := by
          intro hEq
          exact hcnotin (hEq ▸ (List.mem_filter.mp hc').1)
        have : (L.filter (fun t => !(t.categoryId == some c))).filter
              (fun t => t.categoryId == some c')
            = L.filter (fun t => t.categoryId == some c') := by
          rw [List.filter_filter]
          apply List.filter_congr
          intro t _
          cases hcat : t.categoryId with
          | none => simp
          | some c0 =>
              by_cases h0 : c0 = c'
              · subst h0
                simp [hne]
              · simp [h0]
        rw [this]
      have hIH := ih (L.filter (fun t => !(t.categoryId == some c))) hndcs hcov2
      rw [hsplit, List.filter_cons]
      by_cases hPc : P c = true
      · rw [if_pos hPc, List.map_cons, List.sum_cons]
        have hL1 : (L.filter (fun t => t.categoryId == some c)).filter (fun t =>
              match t.categoryId with
              | some c => P c
              | none => false)
            = L.filter (fun t => t.categoryId == some c) := by
          rw [List.filter_eq_self]
          intro t ht
          have := (List.mem_filter.mp ht).2
          have hcat : t.categoryId = some c := by simpa using this
          rw [hcat]
          exact hPc
        rw [hL1, List.map_congr_left hbuckets, hIH]
      · rw [if_neg hPc]
        have hL1 : (L.filter (fun t => t.categoryId == some c)).filter (fun t =>
              match t.categoryId with
              | some c => P c
              | none => false) = [] := by
          rw [List.filter_eq_nil_iff]
          intro t ht
          have := (List.mem_filter.mp ht).2
          have hcat : t.categoryId = some c := by simpa using this
          rw [hcat]
          simpa using hPc
        rw [hL1, List.map_congr_left hbuckets, hIH]
        simp

/-- C7: `computeSpendingByGroup` — per-category sums re-aggregated by
the category's owning group — coincides with directly summing the
month's posted expense transactions whose category belongs to the
group; and a posted expense transaction without a category contributes
to no group, so adding one leaves the whole mapping unchanged. -/
theorem computeSpendingByGroup_spec :
    (∀ (db : DB) (w : String) (ym : YearMonth) (gid : Nat),
        computeSpendingByGroup db w ym gid = spendingByGroupSpec db w ym gid)
    ∧ (∀ (db : DB) (w : String) (ym : YearMonth) (t : Transaction) (gid : Nat),
        t.categoryId = none →
        computeSpendingByGroup (addTx db t) w ym gid
          = computeSpendingByGroup db w ym gid) := by
  constructor
  · intro db w ym gid
    unfold computeSpendingByGroup spendingByGroupSpec categorySpend spendingCategoryIds
    have hnd : (((spendingTxs db w ym).filterMap (fun t => t.categoryId)).dedup).Nodup :=
      List.nodup_dedup _
    have hcov : ∀ t ∈ spendingTxs db w ym, ∃ c, t.categoryId = some c
        ∧ c ∈ ((spendingTxs db w ym).filterMap (fun t => t.categoryId)).dedup := by
      intro t ht
      have hsome : t.categoryId.isSome = true := by
        have hboth := (List.mem_filter.mp ht).2
        simp only [Bool.and_eq_true] at hboth
        exact hboth.2
      obtain ⟨c, hc⟩ := Option.isSome_iff_exists.mp hsome
      exact ⟨c, hc, List.mem_dedup.mpr (List.mem_filterMap.mpr ⟨t, ht, hc⟩)⟩
    rw [sum_by_category (fun c => categoryToGroup db w c == some gid) _ _ hnd hcov]
    unfold spendingTxs
    rw [List.filter_filter]
    apply congrArg List.sum
    apply congrArg (List.map _)
    apply List.filter_congr
    intro t _
    cases hcat : t.categoryId with
    | none => simp
    | some c0 => simp [Bool.and_comm, Bool.and_assoc]
  · intro db w ym t gid ht
    have hspend : spendingTxs (addTx db t) w ym = spendingTxs db w ym := by
      unfold spendingTxs addTx
      dsimp only
      rw [List.filter_cons_of_neg (by simp [ht])]
    have hcats : categoryToGroup (addTx db t) = categoryToGroup db := rfl
    unfold computeSpendingByGroup spendingCategoryIds categorySpend
    rw [hspend, hcats]

end SpendingControl
